import Mathlib

/-!
Verification of the `fetch_jira.py` script of the vf-bug-dashboard repository.

The script fetches issues from a Jira Cloud project, classifies each issue
into a platform via ordered substring matching over labels, components,
custom fields and the summary, aggregates counts of Bug-typed issues into a
platform x status matrix, and writes a JSON snapshot.

We embed the script shallowly:

* Python dicts holding the matrix become association lists
  (`List (String × ...)`), with an `Option`-valued increment that returns
  `none` exactly where Python would raise `KeyError`.
* JSON issue records become a `Fields` structure; `Option` distinguishes an
  absent key from a present one, and for `summary` (where the script's
  behaviour differs between JSON `null` and an absent key) the value type is
  `Option (Option String)` with `some none` standing for JSON `null`.
  For the other sub-fields the embedding's value domain is the shapes the
  tracker actually produces for them (absent key, or a value of the
  documented type); `none` models the absent key.
* Operations that can raise (`[:60]` slicing of `None`, dict `KeyError`)
  return `Option`/`Except`; `none`/`error` marks the raised exception.
* The HTTP layer is modelled as a pure server function
  `Request → Response`; the unbounded `while True` pagination loop takes
  explicit fuel, and `Except.error` covers both a non-success HTTP status
  (`raise_for_status`) and fuel exhaustion.
* Debug-only accumulation (`seen_statuses`, `seen_labels`,
  `seen_components`, `seen_types`) and all `print` calls are omitted: they
  feed the log only and never influence control flow or results — with the
  one exception of the unmatched-bug logging branch, whose summary slicing
  can raise, and which is therefore modelled.
* Strings are compared and upper-cased over their character lists; the
  inputs of interest are ASCII, where Python `str.upper` and Lean
  `String.toUpper` agree.
-/

namespace FetchJira

/-! ## Configuration constants (lines 14-20 of fetch_jira.py)

`PROJECT_KEY` uses the script's default; the environment override is an
input outside the embedding. -/

def PROJECT_KEY : String := "VZY"

def PLATFORMS : List String :=
  ["ANDROID", "ATV", "CMS Adaptor", "CMS Dashboard", "DishIT", "IOS",
   "LG_TV", "SAM_TV", "WEB"]

def STATUSES : List String :=
  ["OPEN", "IN PROGRESS", "REOPENED", "IN REVIEW", "ISSUE ACCEPTED", "PARKED"]

/-! ## Substring search (Python `pattern in all_text`) -/

/-- leadEq needle hay: the character list `needle` is an initial segment of
`hay`. -/
def leadEq : List Char → List Char → Bool
  | [], _ => true
  | _ :: _, [] => false
  | a :: as, b :: bs => a == b && leadEq as bs

/-- listContains needle hay: `needle` occurs contiguously inside `hay`
(Python `needle in hay` on strings). -/
def listContains (needle : List Char) : List Char → Bool
  | [] => needle.isEmpty
  | c :: t => leadEq needle (c :: t) || listContains needle t

/-- strContains hay needle: Python `needle in hay`. -/
def strContains (hay needle : String) : Bool :=
  listContains needle.data hay.data

/-- Python `str.upper` on the ASCII domain, character by character. -/
def strUpper (s : String) : String := String.mk (s.data.map Char.toUpper)

/-! ## Issue records (the JSON shapes consumed by the script) -/

/-- Value of one `customfield_*` entry inside a list-shaped custom field:
either a plain string or an object carrying `value`/`name` sub-fields
(`none` = sub-field absent). -/
inductive CustomItem where
  | str (s : String)
  | obj (value : Option String) (name : Option String)
deriving DecidableEq, Repr

/-- Value of one `customfield_*` entry: a plain string, an object with
`value`/`name` sub-fields, or an array of items. -/
inductive CustomVal where
  | str (s : String)
  | obj (value : Option String) (name : Option String)
  | arr (items : List CustomItem)
deriving DecidableEq, Repr

/-- The `fields` object of an issue. `status`/`issuetype` hold the `name`
sub-field reached by `fields.get('status', {}).get('name', '')` (`none`
when that chain yields the default `''`). `summary` is
`Option (Option String)`: `none` = key absent, `some none` = JSON `null`,
`some (some s)` = the string `s`. `custom` lists the values of the
`customfield_*` keys in dict iteration order. -/
structure Fields where
  status : Option String
  issuetype : Option String
  labels : Option (List String)
  components : Option (List (Option String))
  summary : Option (Option String)
  custom : List CustomVal
deriving DecidableEq, Repr

def emptyFields : Fields := ⟨none, none, none, none, none, []⟩

/-- An issue record; `fields` may be absent (`issue.get('fields', {})`). -/
structure Issue where
  fields : Option Fields
deriving DecidableEq, Repr

/-! ## detect_platform (lines 76-118) -/

/-- Python `a or b` on strings: `a` if non-empty, else `b`. -/
def pyOr (a b : String) : String := if a = "" then b else a

/-- Python truthiness of a custom-field value (`if ... and val:`): a
non-empty string, a non-empty dict, or a non-empty list. An `obj` stands
for a dict carrying a `value` or `name` key, so it is non-empty exactly
when one of the two is present. -/
def pyTruthyVal : CustomVal → Bool
  | .str s => !(s == "")
  | .obj v n => v.isSome || n.isSome
  | .arr items => !items.isEmpty

/-- Upper-cased string extracted from one list item
(lines 93-96; `(item.get('value', '') or item.get('name', '')).upper()`). -/
def itemUpper : CustomItem → String
  | .str s => strUpper s
  | .obj v n => strUpper (pyOr (v.getD "") (n.getD ""))

/-- Strings contributed by one truthy custom-field value (lines 87-96). -/
def valStrings : CustomVal → List String
  | .str s => [strUpper s]
  | .obj v n => [strUpper (pyOr (v.getD "") (n.getD ""))]
  | .arr items => items.map itemUpper

/-- custom_vals of lines 84-96: values of truthy `customfield_*` entries,
flattened. -/
def customVals (fs : Fields) : List String :=
  ((fs.custom.filter pyTruthyVal).map valStrings).flatten

def fieldsOf (issue : Issue) : Fields := issue.fields.getD emptyFields

/-- all_text of line 98: upper-cased labels, component names, custom-field
strings and summary, joined by single spaces. -/
def allText (issue : Issue) : String :=
  let fields := fieldsOf issue
  let labels := (fields.labels.getD []).map strUpper
  let components := (fields.components.getD []).map (fun c => strUpper (c.getD ""))
  let summary := strUpper ((fields.summary.getD none).getD "")
  String.intercalate " " (labels ++ components ++ customVals fields ++ [summary])

/-- platform_patterns of lines 101-111, in source order (Python dicts
preserve insertion order, so iteration follows this list). -/
def platform_patterns : List (String × List String) :=
  [("CMS Adaptor", ["CMS ADAPTOR", "CMS_ADAPTOR", "CMSADAPTOR"]),
   ("CMS Dashboard", ["CMS DASHBOARD", "CMS_DASHBOARD", "CMSDASHBOARD"]),
   ("DishIT", ["DISHIT", "DISH IT", "DISH_IT"]),
   ("LG_TV", ["LG_TV", "LGTV", "LG TV", "WEBOS", "LG-TV"]),
   ("SAM_TV", ["SAM_TV", "SAMTV", "SAM TV", "SAMSUNG TV", "SAMSUNG_TV", "TIZEN", "SAM-TV"]),
   ("ATV", ["ATV", "ANDROID TV", "ANDROID_TV", "ANDROIDTV", "FIRE TV", "FIRETV", "FIRE_TV"]),
   ("ANDROID", ["ANDROID"]),
   ("IOS", ["IOS", "APPLE", "IPHONE", "IPAD"]),
   ("WEB", ["WEB"])]

/-- The nested for-loops of lines 113-116: first rule, in order, one of
whose patterns occurs in the text. -/
def findPlatform (text : String) : List (String × List String) → Option String
  | [] => none
  | (p, pats) :: rest =>
    if pats.any (fun pat => strContains text pat) then some p
    else findPlatform text rest

/-- detect_platform of lines 76-118. -/
def detect_platform (issue : Issue) : Option String :=
  findPlatform (allText issue) platform_patterns

/-! ## The matrix (Python nested dicts, lines 123-126 and 153) -/

/-- Inner dict: status name to count. Counts are integers as in Python. -/
abbrev Row := List (String × Int)

/-- Outer dict: platform name to inner dict. -/
abbrev DashMatrix := List (String × Row)

/-- Lines 124-126: every platform's row pre-initialised with every status
at zero. -/
def initMatrix : DashMatrix :=
  PLATFORMS.map (fun p => (p, STATUSES.map (fun s => (s, (0 : Int)))))

/-- Python `row[s] += 1`: increment the value at the first occurrence of
key `s`; `none` models the `KeyError` raised when `s` is absent. -/
def rowIncr : Row → String → Option Row
  | [], _ => none
  | (k, v) :: rest, s =>
    if k = s then some ((k, v + 1) :: rest)
    else (rowIncr rest s).map (fun r => (k, v) :: r)

/-- Python `matrix[p][s] += 1` (line 153); `none` models `KeyError`. -/
def matIncr : DashMatrix → String → String → Option DashMatrix
  | [], _, _ => none
  | (k, row) :: rest, p, s =>
    if k = p then (rowIncr row s).map (fun r => (k, r) :: rest)
    else (matIncr rest p s).map (fun m => (k, row) :: m)

/-! ## build_dashboard_data (lines 121-170) -/

def statusNameOf (issue : Issue) : String := (fieldsOf issue).status.getD ""

def issueTypeOf (issue : Issue) : String := (fieldsOf issue).issuetype.getD ""

def statusUpperOf (issue : Issue) : String := strUpper (statusNameOf issue)

/-- Line 151: `issue_type.upper() == 'BUG'`. -/
def isBugB (issue : Issue) : Bool := strUpper (issueTypeOf issue) == "BUG"

/-- The `summary` key is present with value JSON `null` — the one case where
`fields.get('summary', '')[:60]` (line 157) raises `TypeError`. -/
def hasNullSummary (issue : Issue) : Bool := (fieldsOf issue).summary == some none

/-- Loop body of lines 135-158 acting on (matrix, unmatched_platforms).
`none` models an uncaught exception: a `KeyError` from the increment, or
the `TypeError` from slicing a `null` summary in the logging branch
(`if unmatched_platforms <= 5`, line 156, after the increment of line 155).
The `seen_*` updates are log-only and omitted. -/
def step (st : DashMatrix × Nat) (issue : Issue) : Option (DashMatrix × Nat) :=
  let platform := detect_platform issue
  let status_upper := statusUpperOf issue
  if isBugB issue then
    match platform with
    | some p =>
      if STATUSES.contains status_upper then
        (matIncr st.1 p status_upper).map (fun m => (m, st.2))
      else some st
    | none =>
      let u := st.2 + 1
      if u ≤ 5 && hasNullSummary issue then none else some (st.1, u)
  else some st

def buildLoop : DashMatrix × Nat → List Issue → Option (DashMatrix × Nat)
  | st, [] => some st
  | st, issue :: rest => (step st issue).bind (fun st2 => buildLoop st2 rest)

/-- build_dashboard_data of lines 121-170: the returned matrix, or `none`
when the Python function raises. -/
def build_dashboard_data (issues : List Issue) : Option DashMatrix :=
  (buildLoop (initMatrix, 0) issues).map Prod.fst

/-! ## Specification-side counting functions -/

/-- An issue counted into cell (p, s): a Bug whose detected platform is `p`
and whose upper-cased status is `s`. -/
def cellPred (p s : String) (issue : Issue) : Bool :=
  isBugB issue && (detect_platform issue == some p) && (statusUpperOf issue == s)

/-- Closed form of the matrix produced from `issues`. -/
def matrixOf (issues : List Issue) : DashMatrix :=
  PLATFORMS.map (fun p =>
    (p, STATUSES.map (fun s => (s, (issues.countP (cellPred p s) : Int)))))

def isUnmatchedBug (issue : Issue) : Bool :=
  isBugB issue && (detect_platform issue).isNone

/-- Closed form of the `unmatched_platforms` counter. -/
def unmatchedCount (issues : List Issue) : Nat := issues.countP isUnmatchedBug

/-- A Bug that lands in some matrix cell: platform detected and upper-cased
status tracked. -/
def isCounted (issue : Issue) : Bool :=
  isBugB issue && (detect_platform issue).isSome
    && STATUSES.contains (statusUpperOf issue)

/-- Sum of all matrix cells. -/
def matTotal (m : DashMatrix) : Int :=
  (m.map (fun pr => (pr.2.map Prod.snd).sum)).sum

def bugCount (issues : List Issue) : Nat := issues.countP isBugB

/-! ## fetch_jira_data (lines 22-73) and main (lines 173-218) -/

/-- The POST payload of lines 40-46. -/
structure Request where
  jql : String
  maxResults : Nat
  nextPageToken : Option String
deriving DecidableEq, Repr

/-- The parts of a Jira response the loop reads: success flag
(`raise_for_status`), `issues`, `nextPageToken`. The debug-only `total`
field is omitted. -/
structure Response where
  statusOk : Bool
  issues : List Issue
  nextPageToken : Option String
deriving DecidableEq, Repr

/-- Line 31. -/
def jqlString : String := "project = " ++ PROJECT_KEY ++ " ORDER BY updated DESC"

/-- Python truthiness of the token (`if not next_page_token`): `None` and
`''` are falsy. -/
def tokenTruthy : Option String → Bool
  | none => false
  | some s => !(s == "")

/-- Lines 40-46: constant jql, `maxResults: 100`, and the token only when
truthy. -/
def mkRequest (tok : Option String) : Request :=
  ⟨jqlString, 100, if tokenTruthy tok then tok else none⟩

/-- The `while True` loop of lines 39-70 against a pure server `srv`, with
fuel bounding the number of requests. Returns the accumulated issues and
the trace of requests made. `Except.error` models `raise_for_status`
propagating an HTTPError (and fuel exhaustion stands for a run making more
requests than the given bound). -/
def fetchLoop (srv : Request → Response) :
    Nat → Option String → List Issue → List Request →
    Except String (List Issue × List Request)
  | 0, _, _, _ => Except.error "fuel exhausted"
  | fuel + 1, tok, acc, reqs =>
    let req := mkRequest tok
    let resp := srv req
    if !resp.statusOk then Except.error "HTTPError"
    else
      let acc2 := acc ++ resp.issues
      let reqs2 := reqs ++ [req]
      if !tokenTruthy resp.nextPageToken || resp.issues.isEmpty then
        Except.ok (acc2, reqs2)
      else fetchLoop srv fuel resp.nextPageToken acc2 reqs2

/-- fetch_jira_data of lines 22-73: loop started with no token and empty
accumulator. -/
def fetch_jira_data (srv : Request → Response) (fuel : Nat) :
    Except String (List Issue × List Request) :=
  fetchLoop srv fuel none [] []

/-- The snapshot written to data.json (lines 206-211). -/
structure Snapshot where
  data : DashMatrix
  updated_at : String
  total_issues_fetched : Nat
  project : String
deriving DecidableEq, Repr

/-- Lines 202-215 of `main` after the configuration check and the
non-fatal project-listing probe: fetch, aggregate, and only then build the
snapshot. `none` means the run aborted with an uncaught exception before
reaching the write of data.json. `now` is the wall-clock timestamp input. -/
def runMain (srv : Request → Response) (fuel : Nat) (now : String) :
    Option Snapshot :=
  match fetch_jira_data srv fuel with
  | Except.error _ => none
  | Except.ok (issues, _) =>
    (build_dashboard_data issues).map
      (fun m => ⟨m, now, issues.length, PROJECT_KEY⟩)

/-- Contents of data.json after a run, given its previous contents: the
file is rewritten only when the run reaches line 214. -/
def finalSnapshotFile (prev : Option Snapshot) (srv : Request → Response)
    (fuel : Nat) (now : String) : Option Snapshot :=
  match runMain srv fuel now with
  | none => prev
  | some s => some s

/-! ## Concrete issue records used in witnesses and counterexamples -/

/-- Bug with a single label, a status name and a plain summary. -/
def mkBug (label : String) (status : String) : Issue :=
  ⟨some ⟨some status, some "Bug", some [label], none, some (some "x"), []⟩⟩

/-- Issue whose only platform signal is the label "WEBOS". -/
def iWebos : Issue :=
  ⟨some ⟨some "Open", some "Bug", some ["WEBOS"], none, none, []⟩⟩

/-- Bug with a matched platform (ANDROID) and an untracked status (Done). -/
def iAndroidDone : Issue := mkBug "ANDROID" "Done"

/-- Bug with a matched platform (ANDROID) and the tracked status Open. -/
def iAndroidOpen : Issue := mkBug "ANDROID" "Open"

/-- Bug with no platform signal and a plain string summary. -/
def iPlainBug : Issue :=
  ⟨some ⟨some "Open", some "Bug", none, none, some (some "no signal"), []⟩⟩

/-- Bug with no platform signal and a JSON `null` summary — the record on
which line 157 raises `TypeError`. -/
def iNullBug : Issue :=
  ⟨some ⟨some "Open", some "Bug", none, none, some none, []⟩⟩

/-- Server stub answering the first request (no continuation token) with
`p1` and any later request with `p2`. -/
def stubSrv (p1 p2 : Response) : Request → Response :=
  fun r => if r.nextPageToken.isNone then p1 else p2

/-- Server whose every response is a non-success status. -/
def failSrv : Request → Response := fun _ => ⟨false, [], none⟩

/-- Server answering every request with one empty success page. -/
def emptySrv : Request → Response := fun _ => ⟨true, [], none⟩

/-- A non-empty success page carrying a continuation token. -/
def pageOne : Response := ⟨true, [iPlainBug], some "tok1"⟩

/-- An empty success page without a continuation token. -/
def pageTwo : Response := ⟨true, [], none⟩

/-- Five platformless bugs followed by the null-summary bug: the crash of
line 157 does not fire because the null-summary bug is the sixth unmatched
one. -/
def permA : List Issue :=
  [iPlainBug, iPlainBug, iPlainBug, iPlainBug, iPlainBug, iNullBug]

/-- The same multiset with the null-summary bug first: line 157 now fires
on it (it is the first unmatched bug). -/
def permB : List Issue :=
  [iNullBug, iPlainBug, iPlainBug, iPlainBug, iPlainBug, iPlainBug]

/-- Contents of data.json from a previous successful run. -/
def snapPrev : Snapshot := ⟨initMatrix, "2026-10-11T00:00:00Z", 0, PROJECT_KEY⟩

/-! ## Helper lemmas -/

theorem contains_iff_mem_str (l : List String) (s : String) :
    l.contains s = true ↔ s ∈ l := by
  simp

theorem findPlatform_mem (text : String) :
    ∀ (rules : List (String × List String)) (p : String),
      findPlatform text rules = some p → p ∈ rules.map Prod.fst := by
  intro rules
  induction rules with
  | nil => intro p h; simp [findPlatform] at h
  | cons pr rest ih =>
    intro p h
    obtain ⟨q, pats⟩ := pr
    by_cases hc : (pats.any (fun pat => strContains text pat)) = true
    · simp [findPlatform, hc] at h
      simp [h]
    · simp [findPlatform, hc] at h
      simpa using Or.inr (ih p h)

theorem detect_platform_mem (issue : Issue) (p : String)
    (h : detect_platform issue = some p) : p ∈ PLATFORMS := by
  have hmem := findPlatform_mem (allText issue) platform_patterns p h
  have hsub : ∀ q ∈ platform_patterns.map Prod.fst, q ∈ PLATFORMS := by decide
  exact hsub p hmem

theorem findPlatform_eq_find? (text : String) :
    ∀ rules : List (String × List String),
      findPlatform text rules =
        (rules.find? (fun pr => pr.2.any (fun pat => strContains text pat))).map
          Prod.fst := by
  intro rules
  induction rules with
  | nil => simp [findPlatform]
  | cons pr rest ih =>
    obtain ⟨q, pats⟩ := pr
    by_cases hc : (pats.any (fun pat => strContains text pat)) = true
    · simp [findPlatform, List.find?_cons, hc]
    · simp [findPlatform, List.find?_cons, hc, ih]

theorem rowIncr_isSome (s : String) :
    ∀ r : Row, s ∈ r.map Prod.fst → (rowIncr r s).isSome = true := by
  intro r
  induction r with
  | nil => intro h; simp at h
  | cons kv rest ih =>
    intro h
    obtain ⟨k, v⟩ := kv
    by_cases hk : k = s
    · simp [rowIncr, hk]
    · simp [hk] at h
      rcases h with h | h
      · exact absurd h.symm hk
      · simp [rowIncr, hk, Option.isSome_map', ih (by simpa using h)]

theorem matIncr_isSome (p s : String) :
    ∀ m : DashMatrix, p ∈ m.map Prod.fst →
      (∀ r ∈ m, s ∈ r.2.map Prod.fst) → (matIncr m p s).isSome = true := by
  intro m
  induction m with
  | nil => intro h; simp at h
  | cons kr rest ih =>
    intro hp hs
    obtain ⟨k, row⟩ := kr
    by_cases hk : k = p
    · have hrow : s ∈ row.map Prod.fst := by
        simpa using hs (k, row) (by simp)
      simp [matIncr, hk, Option.isSome_map', rowIncr_isSome s row hrow]
    · simp [hk] at hp
      rcases hp with h | h
      · exact absurd h.symm hk
      · have : (matIncr rest p s).isSome = true :=
          ih (by simpa using h) (fun r hr => hs r (by simp [hr]))
        simp [matIncr, hk, Option.isSome_map', this]

theorem rowIncr_map_eq (g : String → Int) (s0 : String) :
    ∀ ss : List String, ss.Nodup → s0 ∈ ss →
      rowIncr (ss.map fun s => (s, g s)) s0 =
        some (ss.map fun s => (s, if s = s0 then g s + 1 else g s)) := by
  intro ss
  induction ss with
  | nil => intro _ h; simp at h
  | cons a t ih =>
    intro hnd hmem
    by_cases ha : a = s0
    · subst ha
      have hnot : a ∉ t := (List.nodup_cons.mp hnd).1
      have ht : (t.map fun s => (s, if s = a then g s + 1 else g s)) =
          t.map fun s => (s, g s) := by
        apply List.map_congr_left
        intro s hs
        have : s ≠ a := fun hsa => hnot (hsa ▸ hs)
        simp [this]
      simp [rowIncr, ht]
    · have hmem' : s0 ∈ t := by
        rcases List.mem_cons.mp hmem with h | h
        · exact absurd h.symm ha
        · exact h
      have hnd' : t.Nodup := (List.nodup_cons.mp hnd).2
      simp [rowIncr, ha, ih hnd' hmem']

theorem matIncr_map_eq (rowF : String → Row) (row' : Row) (p0 s0 : String)
    (hrow : rowIncr (rowF p0) s0 = some row') :
    ∀ ps : List String, ps.Nodup → p0 ∈ ps →
      matIncr (ps.map fun p => (p, rowF p)) p0 s0 =
        some (ps.map fun p => (p, if p = p0 then row' else rowF p)) := by
  intro ps
  induction ps with
  | nil => intro _ h; simp at h
  | cons a t ih =>
    intro hnd hmem
    by_cases ha : a = p0
    · subst ha
      have hnot : a ∉ t := (List.nodup_cons.mp hnd).1
      have ht : (t.map fun p => (p, if p = a then row' else rowF p)) =
          t.map fun p => (p, rowF p) := by
        apply List.map_congr_left
        intro p hp
        have : p ≠ a := fun hpa => hnot (hpa ▸ hp)
        simp [this]
      simp [matIncr, hrow, ht]
    · have hmem' : p0 ∈ t := by
        rcases List.mem_cons.mp hmem with h | h
        · exact absurd h.symm ha
        · exact h
      have hnd' : t.Nodup := (List.nodup_cons.mp hnd).2
      simp [matIncr, ha, ih hnd' hmem']

theorem rowIncr_sum (s : String) :
    ∀ (r r' : Row), rowIncr r s = some r' →
      (r'.map Prod.snd).sum = (r.map Prod.snd).sum + 1 := by
  intro r
  induction r with
  | nil => intro r' h; simp [rowIncr] at h
  | cons kv rest ih =>
    intro r' h
    obtain ⟨k, v⟩ := kv
    by_cases hk : k = s
    · simp [rowIncr, hk] at h
      subst h
      simp [add_assoc, add_comm, add_left_comm]
    · simp [rowIncr, hk] at h
      obtain ⟨r2, h2, hr⟩ := h
      subst hr
      simp [ih r2 h2, add_assoc]

theorem matIncr_total (p s : String) :
    ∀ (m m' : DashMatrix), matIncr m p s = some m' →
      matTotal m' = matTotal m + 1 := by
  intro m
  induction m with
  | nil => intro m' h; simp [matIncr] at h
  | cons kr rest ih =>
    intro m' h
    obtain ⟨k, row⟩ := kr
    by_cases hk : k = p
    · simp [matIncr, hk] at h
      obtain ⟨r2, h2, hm⟩ := h
      subst hm
      simp [matTotal, rowIncr_sum s row r2 h2, add_assoc, add_comm, add_left_comm]
    · simp [matIncr, hk] at h
      obtain ⟨m2, h2, hm⟩ := h
      subst hm
      have := ih m2 h2
      simp [matTotal] at this ⊢
      omega

theorem countP_le_and_eq_iff {α : Type} (p q : α → Bool)
    (hpq : ∀ a, p a = true → q a = true) :
    ∀ l : List α, l.countP p ≤ l.countP q ∧
      (l.countP p = l.countP q ↔ ∀ a ∈ l, q a = true → p a = true) := by
  intro l
  induction l with
  | nil => simp
  | cons a t ih =>
    obtain ⟨ih1, ih2⟩ := ih
    cases hpa : p a with
    | false =>
      have e1 : (a :: t).countP p = t.countP p := by
        simp [List.countP_cons, hpa]
      cases hqa : q a with
      | false =>
        have e2 : (a :: t).countP q = t.countP q := by
          simp [List.countP_cons, hqa]
        rw [e1, e2]
        refine ⟨ih1, ?_⟩
        rw [ih2]
        constructor
        · intro hall b hb
          rcases List.mem_cons.mp hb with h | h
          · intro hq; rw [h, hqa] at hq; exact absurd hq (by simp)
          · exact hall b h
        · intro hall b hb
          exact hall b (List.mem_cons.mpr (Or.inr hb))
      | true =>
        have e2 : (a :: t).countP q = t.countP q + 1 := by
          simp [List.countP_cons, hqa]
        rw [e1, e2]
        refine ⟨by omega, ?_, ?_⟩
        · intro heq
          exfalso
          omega
        · intro hall
          exfalso
          have := hall a (List.mem_cons.mpr (Or.inl rfl)) hqa
          rw [hpa] at this
          exact absurd this (by simp)
    | true =>
      have hqa : q a = true := hpq a hpa
      have e1 : (a :: t).countP p = t.countP p + 1 := by
        simp [List.countP_cons, hpa]
      have e2 : (a :: t).countP q = t.countP q + 1 := by
        simp [List.countP_cons, hqa]
      rw [e1, e2]
      constructor
      · omega
      · rw [Nat.add_right_cancel_iff, ih2]
        constructor
        · intro hall b hb
          rcases List.mem_cons.mp hb with h | h
          · intro _; rw [h]; exact hpa
          · exact hall b h
        · intro hall b hb
          exact hall b (List.mem_cons.mpr (Or.inr hb))

theorem step_eq (m : DashMatrix) (u : Nat) (issue : Issue) :
    step (m, u) issue =
      (if isBugB issue = true then
        match detect_platform issue with
        | some p =>
          if STATUSES.contains (statusUpperOf issue) = true then
            (matIncr m p (statusUpperOf issue)).map (fun m2 => (m2, u))
          else some (m, u)
        | none =>
          if (decide (u + 1 ≤ 5) && hasNullSummary issue) = true then none
          else some (m, u + 1)
      else some (m, u)) := rfl

theorem isCounted_eq (issue : Issue) :
    isCounted issue =
      (isBugB issue && (detect_platform issue).isSome
        && STATUSES.contains (statusUpperOf issue)) := rfl

theorem step_notbug (m : DashMatrix) (u : Nat) (issue : Issue)
    (hb : isBugB issue = false) : step (m, u) issue = some (m, u) := by
  simp [step_eq, hb]

theorem not_mem_of_contains_false (l : List String) (s : String)
    (hc : l.contains s = false) : s ∉ l := by
  intro hmem
  rw [← contains_iff_mem_str, hc] at hmem
  exact absurd hmem (by simp)

theorem step_counted (m : DashMatrix) (u : Nat) (issue : Issue) (p : String)
    (hb : isBugB issue = true) (hd : detect_platform issue = some p)
    (hc : STATUSES.contains (statusUpperOf issue) = true) :
    step (m, u) issue =
      (matIncr m p (statusUpperOf issue)).map (fun m2 => (m2, u)) := by
  have hsu : statusUpperOf issue ∈ STATUSES :=
    (contains_iff_mem_str STATUSES (statusUpperOf issue)).mp hc
  simp [step_eq, hb, hd, hsu]

theorem step_untracked (m : DashMatrix) (u : Nat) (issue : Issue) (p : String)
    (hb : isBugB issue = true) (hd : detect_platform issue = some p)
    (hc : STATUSES.contains (statusUpperOf issue) = false) :
    step (m, u) issue = some (m, u) := by
  have hsu := not_mem_of_contains_false STATUSES (statusUpperOf issue) hc
  simp [step_eq, hb, hd, hsu]

theorem step_unmatched (m : DashMatrix) (u : Nat) (issue : Issue)
    (hb : isBugB issue = true) (hd : detect_platform issue = none)
    (hcond : (decide (u + 1 ≤ 5) && hasNullSummary issue) = false) :
    step (m, u) issue = some (m, u + 1) := by
  simp at hcond
  by_cases hu : u ≤ 4
  · have hnull := hcond hu
    simp [step_eq, hb, hd, hnull]
  · simp [step_eq, hb, hd, hu]

theorem step_crash (m : DashMatrix) (u : Nat) (issue : Issue)
    (hb : isBugB issue = true) (hd : detect_platform issue = none)
    (hcond : (decide (u + 1 ≤ 5) && hasNullSummary issue) = true) :
    step (m, u) issue = none := by
  simp at hcond
  simp [step_eq, hb, hd, hcond]

theorem step_total (m : DashMatrix) (u : Nat) (issue : Issue)
    (mA : DashMatrix) (uA : Nat) (h : step (m, u) issue = some (mA, uA)) :
    matTotal mA = matTotal m + (if isCounted issue = true then 1 else 0) := by
  cases hb : isBugB issue with
  | false =>
    rw [step_notbug m u issue hb] at h
    have h' := Option.some.inj h
    rw [Prod.mk.injEq] at h'
    rw [← h'.1]
    simp [isCounted_eq, hb]
  | true =>
    cases hd : detect_platform issue with
    | none =>
      cases hcond : (decide (u + 1 ≤ 5) && hasNullSummary issue) with
      | true =>
        rw [step_crash m u issue hb hd hcond] at h
        exact absurd h (by simp)
      | false =>
        rw [step_unmatched m u issue hb hd hcond] at h
        have h' := Option.some.inj h
        rw [Prod.mk.injEq] at h'
        rw [← h'.1]
        simp [isCounted_eq, hb, hd]
    | some p =>
      cases hc : STATUSES.contains (statusUpperOf issue) with
      | false =>
        rw [step_untracked m u issue p hb hd hc] at h
        have hsu := not_mem_of_contains_false STATUSES (statusUpperOf issue) hc
        have h' := Option.some.inj h
        rw [Prod.mk.injEq] at h'
        rw [← h'.1]
        simp [isCounted_eq, hb, hd, hsu]
      | true =>
        rw [step_counted m u issue p hb hd hc, Option.map_eq_some'] at h
        have hsu : statusUpperOf issue ∈ STATUSES :=
          (contains_iff_mem_str STATUSES (statusUpperOf issue)).mp hc
        obtain ⟨m2, hm2, hst⟩ := h
        rw [Prod.mk.injEq] at hst
        rw [← hst.1, matIncr_total p (statusUpperOf issue) m m2 hm2]
        simp [isCounted_eq, hb, hd, hsu]

theorem buildLoop_total :
    ∀ (l : List Issue) (m : DashMatrix) (u : Nat) (st : DashMatrix × Nat),
      buildLoop (m, u) l = some st →
      matTotal st.1 = matTotal m + (l.countP isCounted : Int) := by
  intro l
  induction l with
  | nil =>
    intro m u st h
    simp [buildLoop] at h
    rw [← h]
    simp
  | cons i rest ih =>
    intro m u st h
    simp only [buildLoop, Option.bind_eq_some] at h
    obtain ⟨st1, h1, h2⟩ := h
    obtain ⟨m1, u1⟩ := st1
    have ht1 := step_total m u i m1 u1 h1
    have ht2 := ih m1 u1 st h2
    rw [ht2, ht1, List.countP_cons]
    push_cast
    ring

/-! ## Characterisation of the loop state as counting -/

theorem matrixOf_append_not (acc : List Issue) (i : Issue)
    (hno : ∀ p s, p ∈ PLATFORMS → s ∈ STATUSES → cellPred p s i = false) :
    matrixOf (acc ++ [i]) = matrixOf acc := by
  unfold matrixOf
  apply List.map_congr_left
  intro p hp
  simp only [Prod.mk.injEq, true_and]
  apply List.map_congr_left
  intro s hs
  simp only [Prod.mk.injEq, true_and]
  rw [List.countP_append]
  simp [List.countP_cons, hno p s hp hs]

theorem unmatchedCount_append (acc : List Issue) (i : Issue) :
    unmatchedCount (acc ++ [i]) =
      unmatchedCount acc + (if isUnmatchedBug i = true then 1 else 0) := by
  unfold unmatchedCount
  rw [List.countP_append]
  simp [List.countP_cons]

theorem step_char (acc : List Issue) (i : Issue) (mA : DashMatrix) (uA : Nat)
    (h : step (matrixOf acc, unmatchedCount acc) i = some (mA, uA)) :
    mA = matrixOf (acc ++ [i]) ∧ uA = unmatchedCount (acc ++ [i]) := by
  cases hb : isBugB i with
  | false =>
    rw [step_notbug _ _ i hb] at h
    have h' := Option.some.inj h
    rw [Prod.mk.injEq] at h'
    rw [← h'.1, ← h'.2, matrixOf_append_not, unmatchedCount_append]
    · simp [isUnmatchedBug, hb]
    · intro p s _ _
      simp [cellPred, hb]
  | true =>
    cases hd : detect_platform i with
    | none =>
      cases hcond : (decide (unmatchedCount acc + 1 ≤ 5) && hasNullSummary i) with
      | true =>
        rw [step_crash _ _ i hb hd hcond] at h
        exact absurd h (by simp)
      | false =>
        rw [step_unmatched _ _ i hb hd hcond] at h
        have h' := Option.some.inj h
        rw [Prod.mk.injEq] at h'
        rw [← h'.1, ← h'.2, matrixOf_append_not, unmatchedCount_append]
        · simp [isUnmatchedBug, hb, hd]
        · intro p s _ _
          simp [cellPred, hd]
    | some p0 =>
      cases hc : STATUSES.contains (statusUpperOf i) with
      | false =>
        rw [step_untracked _ _ i p0 hb hd hc] at h
        have hsu := not_mem_of_contains_false STATUSES (statusUpperOf i) hc
        have h' := Option.some.inj h
        rw [Prod.mk.injEq] at h'
        rw [← h'.1, ← h'.2, matrixOf_append_not, unmatchedCount_append]
        · simp [isUnmatchedBug, hb, hd]
        · intro p s _ hs
          have hne : (statusUpperOf i == s) = false :=
            beq_eq_false_iff_ne.mpr (fun hss => hsu (hss ▸ hs))
          simp [cellPred, hne]
      | true =>
        rw [step_counted _ _ i p0 hb hd hc] at h
        have hsu : statusUpperOf i ∈ STATUSES :=
          (contains_iff_mem_str STATUSES (statusUpperOf i)).mp hc
        have hp0 : p0 ∈ PLATFORMS := detect_platform_mem i p0 hd
        have hrow := rowIncr_map_eq
          (fun s => (acc.countP (cellPred p0 s) : Int)) (statusUpperOf i)
          STATUSES (by decide) hsu
        have hmI : matIncr (matrixOf acc) p0 (statusUpperOf i) =
            some (PLATFORMS.map fun p =>
              (p, if p = p0
                  then STATUSES.map fun s =>
                    (s, if s = statusUpperOf i
                        then (acc.countP (cellPred p0 s) : Int) + 1
                        else (acc.countP (cellPred p0 s) : Int))
                  else STATUSES.map fun s =>
                    (s, (acc.countP (cellPred p s) : Int)))) :=
          matIncr_map_eq
            (fun p => STATUSES.map fun s => (s, (acc.countP (cellPred p s) : Int)))
            (STATUSES.map fun s =>
              (s, if s = statusUpperOf i
                  then (acc.countP (cellPred p0 s) : Int) + 1
                  else (acc.countP (cellPred p0 s) : Int)))
            p0 (statusUpperOf i) hrow PLATFORMS (by decide) hp0
        rw [hmI, Option.map_some'] at h
        have h' := Option.some.inj h
        rw [Prod.mk.injEq] at h'
        constructor
        · rw [← h'.1]
          unfold matrixOf
          apply List.map_congr_left
          intro p hp
          simp only [Prod.mk.injEq, true_and]
          by_cases hpp : p = p0
          · rw [if_pos hpp]
            subst hpp
            apply List.map_congr_left
            intro s hs
            simp only [Prod.mk.injEq, true_and]
            rw [List.countP_append]
            by_cases hss : s = statusUpperOf i
            · have hcell : cellPred p s i = true := by
                simp [cellPred, hb, hd, hss]
              rw [if_pos hss]
              simp [List.countP_cons, hcell]
            · have hne : (statusUpperOf i == s) = false :=
                beq_eq_false_iff_ne.mpr (fun hq => hss hq.symm)
              have hcell : cellPred p s i = false := by
                simp [cellPred, hne]
              rw [if_neg hss]
              simp [List.countP_cons, hcell]
          · rw [if_neg hpp]
            apply List.map_congr_left
            intro s hs
            simp only [Prod.mk.injEq, true_and]
            have hne : (detect_platform i == some p) = false := by
              rw [hd]
              exact beq_eq_false_iff_ne.mpr
                (fun hq => hpp (Option.some.inj hq).symm)
            have hcell : cellPred p s i = false := by
              simp [cellPred, hne]
            rw [List.countP_append]
            simp [List.countP_cons, hcell]
        · rw [← h'.2, unmatchedCount_append]
          simp [isUnmatchedBug, hb, hd]

theorem matrixOf_nil : matrixOf [] = initMatrix := by
  simp [matrixOf, initMatrix]

theorem buildLoop_char :
    ∀ (l acc : List Issue) (mA : DashMatrix) (uA : Nat),
      buildLoop (matrixOf acc, unmatchedCount acc) l = some (mA, uA) →
      mA = matrixOf (acc ++ l) ∧ uA = unmatchedCount (acc ++ l) := by
  intro l
  induction l with
  | nil =>
    intro acc mA uA h
    have h2 : some (matrixOf acc, unmatchedCount acc) = some (mA, uA) := h
    have h' := Option.some.inj h2
    rw [Prod.mk.injEq] at h'
    rw [← h'.1, ← h'.2]
    simp
  | cons i rest ih =>
    intro acc mA uA h
    simp only [buildLoop, Option.bind_eq_some] at h
    obtain ⟨st1, h1, h2⟩ := h
    obtain ⟨m1, u1⟩ := st1
    obtain ⟨hm1, hu1⟩ := step_char acc i m1 u1 h1
    subst hm1
    subst hu1
    have hres := ih (acc ++ [i]) mA uA h2
    simpa using hres

theorem build_char (l : List Issue) (m : DashMatrix)
    (h : build_dashboard_data l = some m) : m = matrixOf l := by
  unfold build_dashboard_data at h
  rw [Option.map_eq_some'] at h
  obtain ⟨st, hst, hm⟩ := h
  obtain ⟨m1, u1⟩ := st
  have h0 : buildLoop (matrixOf [], unmatchedCount []) l = some (m1, u1) := hst
  obtain ⟨hm1, _⟩ := buildLoop_char l [] m1 u1 h0
  have hm' : m1 = m := hm
  rw [← hm', hm1]
  simp

theorem build_total (l : List Issue) (m : DashMatrix)
    (h : build_dashboard_data l = some m) :
    matTotal m = (l.countP isCounted : Int) := by
  unfold build_dashboard_data at h
  rw [Option.map_eq_some'] at h
  obtain ⟨st, hst, hm⟩ := h
  have ht := buildLoop_total l initMatrix 0 st hst
  have hm' : st.1 = m := hm
  rw [← hm', ht]
  have : matTotal initMatrix = 0 := by decide
  rw [this]
  ring

theorem map_fst_pair {α β : Type} (xs : List α) (g : α → β) :
    (xs.map fun x => (x, g x)).map Prod.fst = xs := by
  induction xs with
  | nil => simp
  | cons a t ih => simp [ih]

theorem matrixOf_keys (l : List Issue) :
    (matrixOf l).map Prod.fst = PLATFORMS :=
  map_fst_pair PLATFORMS _

theorem matrixOf_row_keys (l : List Issue) :
    ∀ r ∈ matrixOf l, r.2.map Prod.fst = STATUSES := by
  intro r hr
  obtain ⟨p, hp, rfl⟩ := List.mem_map.mp hr
  exact map_fst_pair STATUSES _

theorem matrixOf_cells_nonneg (l : List Issue) :
    ∀ r ∈ matrixOf l, ∀ c ∈ r.2, 0 ≤ c.2 := by
  intro r hr c hc
  obtain ⟨p, hp, rfl⟩ := List.mem_map.mp hr
  obtain ⟨s, hs, rfl⟩ := List.mem_map.mp hc
  exact Int.natCast_nonneg _

/-! ## Fetch-loop helper lemmas -/

theorem fetchLoop_eq (srv : Request → Response) (fuel : Nat)
    (tok : Option String) (acc : List Issue) (reqs : List Request) :
    fetchLoop srv (fuel + 1) tok acc reqs =
      (if (!(srv (mkRequest tok)).statusOk) = true then Except.error "HTTPError"
       else if (!tokenTruthy (srv (mkRequest tok)).nextPageToken
                || (srv (mkRequest tok)).issues.isEmpty) = true then
         Except.ok (acc ++ (srv (mkRequest tok)).issues, reqs ++ [mkRequest tok])
       else fetchLoop srv fuel (srv (mkRequest tok)).nextPageToken
         (acc ++ (srv (mkRequest tok)).issues) (reqs ++ [mkRequest tok])) := rfl

theorem tokenTruthy_isNone (t : Option String)
    (h : tokenTruthy t = true) : t.isNone = false := by
  cases t with
  | none => simp [tokenTruthy] at h
  | some s => rfl

theorem fetchLoop_reqs (srv : Request → Response) :
    ∀ (fuel : Nat) (tok : Option String) (acc : List Issue)
      (reqs : List Request) (issues : List Issue) (reqs' : List Request),
      fetchLoop srv fuel tok acc reqs = Except.ok (issues, reqs') →
      (∀ r ∈ reqs, r.maxResults = 100) → (∀ r ∈ reqs', r.maxResults = 100) := by
  intro fuel
  induction fuel with
  | zero =>
    intro tok acc reqs issues reqs' h
    exact absurd h (by simp [fetchLoop])
  | succ n ih =>
    intro tok acc reqs issues reqs' h hall
    rw [fetchLoop_eq] at h
    have hext : ∀ r ∈ reqs ++ [mkRequest tok], r.maxResults = 100 := by
      intro r hr
      rcases List.mem_append.mp hr with hr | hr
      · exact hall r hr
      · rw [List.mem_singleton.mp hr]
        rfl
    cases hok : (srv (mkRequest tok)).statusOk with
    | false =>
      rw [hok] at h
      rw [if_pos (show (!false) = true from rfl)] at h
      exact absurd h (by simp)
    | true =>
      rw [hok] at h
      rw [if_neg (show ¬((!true) = true) by simp)] at h
      cases hstop : (!tokenTruthy (srv (mkRequest tok)).nextPageToken
          || (srv (mkRequest tok)).issues.isEmpty) with
      | true =>
        rw [hstop, if_pos (show true = true from rfl)] at h
        have h' := Except.ok.inj h
        rw [Prod.mk.injEq] at h'
        rw [← h'.2]
        exact hext
      | false =>
        rw [hstop, if_neg (show ¬(false = true) by simp)] at h
        exact ih _ _ _ _ _ h hext

theorem runMain_fetch_error (srv : Request → Response) (fuel : Nat)
    (now : String) (e : String) (h : fetch_jira_data srv fuel = Except.error e) :
    runMain srv fuel now = none := by
  unfold runMain
  rw [h]

theorem runMain_build_none (srv : Request → Response) (fuel : Nat)
    (now : String) (issues : List Issue) (reqs : List Request)
    (hf : fetch_jira_data srv fuel = Except.ok (issues, reqs))
    (hb : build_dashboard_data issues = none) :
    runMain srv fuel now = none := by
  unfold runMain
  rw [hf]
  simp [hb]

theorem runMain_some (srv : Request → Response) (fuel : Nat) (now : String)
    (s : Snapshot) (h : runMain srv fuel now = some s) :
    ∃ (issues : List Issue) (reqs : List Request),
      fetch_jira_data srv fuel = Except.ok (issues, reqs) ∧
      build_dashboard_data issues = some s.data ∧
      s.total_issues_fetched = issues.length := by
  unfold runMain at h
  cases hf : fetch_jira_data srv fuel with
  | error e =>
    rw [hf] at h
    exact absurd h (by simp)
  | ok pr =>
    obtain ⟨issues, reqs⟩ := pr
    rw [hf] at h
    simp only [Option.map_eq_some'] at h
    obtain ⟨m, hb, hs⟩ := h
    refine ⟨issues, reqs, rfl, ?_, ?_⟩
    · rw [← hs, hb]
    · rw [← hs]

theorem finalFile_of_none (prev : Option Snapshot) (srv : Request → Response)
    (fuel : Nat) (now : String) (h : runMain srv fuel now = none) :
    finalSnapshotFile prev srv fuel now = prev := by
  unfold finalSnapshotFile
  rw [h]

/-! ## The claims -/

/-- C1: for every input list on which the aggregation returns a matrix, the
matrix's key set is exactly the 9 PLATFORMS, every platform's row has
exactly the 6 STATUSES as keys, and every cell is a non-negative integer;
moreover the empty input returns the initial matrix, all of whose cells
are 0. -/
theorem c1_matrix_shape :
    (∀ (l : List Issue) (m : DashMatrix), build_dashboard_data l = some m →
      m.map Prod.fst = PLATFORMS ∧ (∀ r ∈ m, r.2.map Prod.fst = STATUSES) ∧
      (∀ r ∈ m, ∀ c ∈ r.2, 0 ≤ c.2)) ∧
    (build_dashboard_data [] = some initMatrix ∧
      ∀ r ∈ initMatrix, ∀ c ∈ r.2, c.2 = 0) := by
  constructor
  · intro l m h
    rw [build_char l m h]
    exact ⟨matrixOf_keys l, matrixOf_row_keys l, matrixOf_cells_nonneg l⟩
  · exact ⟨rfl, by decide⟩

/-- Witness for C1: the theorem applied to the empty input. -/
theorem c1_matrix_shape_witness :
    initMatrix.map Prod.fst = PLATFORMS ∧
    (∀ r ∈ initMatrix, r.2.map Prod.fst = STATUSES) ∧
    (∀ r ∈ initMatrix, ∀ c ∈ r.2, 0 ≤ c.2) :=
  c1_matrix_shape.1 [] initMatrix rfl

/-- C2: for every run that returns a matrix, the sum of all cells is at most
the number of Bug-typed issues, with equality exactly when every Bug-typed
issue has both a detected platform and an upper-cased status belonging to
STATUSES. -/
theorem c2_count_conservation :
    ∀ (l : List Issue) (m : DashMatrix), build_dashboard_data l = some m →
      matTotal m ≤ (bugCount l : Int) ∧
      (matTotal m = (bugCount l : Int) ↔
        ∀ i ∈ l, isBugB i = true →
          (detect_platform i).isSome = true ∧ statusUpperOf i ∈ STATUSES) := by
  intro l m h
  have ht := build_total l m h
  have hpq : ∀ i : Issue, isCounted i = true → isBugB i = true := by
    intro i hi
    rw [isCounted_eq, Bool.and_eq_true, Bool.and_eq_true] at hi
    exact hi.1.1
  obtain ⟨hle, hiff⟩ := countP_le_and_eq_iff isCounted isBugB hpq l
  have hcond : ∀ i : Issue, isBugB i = true →
      (isCounted i = true ↔
        (detect_platform i).isSome = true ∧ statusUpperOf i ∈ STATUSES) := by
    intro i hb
    simp [isCounted_eq, hb, Bool.and_eq_true]
  constructor
  · rw [ht]
    unfold bugCount
    exact_mod_cast hle
  · rw [ht]
    unfold bugCount
    rw [Nat.cast_inj, hiff]
    constructor
    · intro hall i hi hb
      exact (hcond i hb).mp (hall i hi hb)
    · intro hall i hi hb
      exact (hcond i hb).mpr (hall i hi hb)

/-- Witness for C2: one Bug with platform ANDROID and status Open. -/
theorem c2_count_conservation_witness :
    matTotal (matrixOf [iAndroidOpen]) ≤ (bugCount [iAndroidOpen] : Int) ∧
    (matTotal (matrixOf [iAndroidOpen]) = (bugCount [iAndroidOpen] : Int) ↔
      ∀ i ∈ [iAndroidOpen], isBugB i = true →
        (detect_platform i).isSome = true ∧ statusUpperOf i ∈ STATUSES) :=
  c2_count_conservation [iAndroidOpen] (matrixOf [iAndroidOpen]) (by decide)

/-- C3: an issue whose text contains "WEBOS" while no pattern of the three
rules preceding the LG_TV rule occurs is classified LG_TV (not WEB), and in
general detect_platform returns the platform of the first rule, in table
order, with a matching pattern. -/
theorem c3_pattern_priority :
    (∀ issue : Issue, strContains (allText issue) "WEBOS" = true →
      (∀ pr ∈ platform_patterns.take 3, ∀ pat ∈ pr.2,
        strContains (allText issue) pat = false) →
      detect_platform issue = some "LG_TV") ∧
    (∀ issue : Issue, detect_platform issue =
      (platform_patterns.find? (fun pr =>
        pr.2.any (fun pat => strContains (allText issue) pat))).map Prod.fst) := by
  constructor
  · intro issue h1 h2
    have h3 : ∀ pr ∈ platform_patterns.take 3,
        (pr.2.any fun pat => strContains (allText issue) pat) = false := by
      intro pr hpr
      rw [List.any_eq_false]
      intro pat hpat
      rw [h2 pr hpr pat hpat]
      simp
    have e1 := h3 ("CMS Adaptor", ["CMS ADAPTOR", "CMS_ADAPTOR", "CMSADAPTOR"])
      (by simp [platform_patterns])
    have e2 := h3 ("CMS Dashboard",
      ["CMS DASHBOARD", "CMS_DASHBOARD", "CMSDASHBOARD"])
      (by simp [platform_patterns])
    have e3 := h3 ("DishIT", ["DISHIT", "DISH IT", "DISH_IT"])
      (by simp [platform_patterns])
    have e4 : (["LG_TV", "LGTV", "LG TV", "WEBOS", "LG-TV"].any
        fun pat => strContains (allText issue) pat) = true := by
      rw [List.any_eq_true]
      exact ⟨"WEBOS", by simp, h1⟩
    show findPlatform (allText issue) platform_patterns = some "LG_TV"
    rw [platform_patterns.eq_def]
    rw [findPlatform, if_neg (by rw [e1]; simp)]
    rw [findPlatform, if_neg (by rw [e2]; simp)]
    rw [findPlatform, if_neg (by rw [e3]; simp)]
    rw [findPlatform, if_pos (by rw [e4])]
  · intro issue
    exact findPlatform_eq_find? (allText issue) platform_patterns

/-- Witness for C3: the issue whose only label is "WEBOS". -/
theorem c3_pattern_priority_witness :
    detect_platform iWebos = some "LG_TV" :=
  c3_pattern_priority.1 iWebos (by decide) (by decide)

/-- C4 counterexample: a Bug with detected platform ANDROID and untracked
status Done is dropped from the matrix while the run's only diagnostic
counter, unmatched_platforms, is not incremented — there is no second
"platform matched but status untracked" counter to increment. -/
theorem c4_counterexample :
    isBugB iAndroidDone = true ∧
    detect_platform iAndroidDone = some "ANDROID" ∧
    statusUpperOf iAndroidDone ∉ STATUSES ∧
    buildLoop (initMatrix, 0) [iAndroidDone] = some (initMatrix, 0) := by
  exact ⟨rfl, by decide, by decide, by decide⟩

/-- C4 (amended): the aggregator keeps a single diagnostic counter.
A Bug with no detected platform increments it; a Bug with a detected
platform but an untracked status leaves the whole state — matrix and
counter — unchanged. -/
theorem c4_single_counter :
    ∀ (m : DashMatrix) (u : Nat) (issue : Issue) (mA : DashMatrix) (uA : Nat),
      step (m, u) issue = some (mA, uA) → isBugB issue = true →
      (detect_platform issue = none → mA = m ∧ uA = u + 1) ∧
      (∀ p : String, detect_platform issue = some p →
        statusUpperOf issue ∉ STATUSES → mA = m ∧ uA = u) := by
  intro m u issue mA uA h hb
  constructor
  · intro hd
    cases hcond : (decide (u + 1 ≤ 5) && hasNullSummary issue) with
    | true =>
      rw [step_crash m u issue hb hd hcond] at h
      exact absurd h (by simp)
    | false =>
      rw [step_unmatched m u issue hb hd hcond] at h
      have h' := Option.some.inj h
      rw [Prod.mk.injEq] at h'
      exact ⟨h'.1.symm, h'.2.symm⟩
  · intro p hd hsu
    have hc : STATUSES.contains (statusUpperOf issue) = false := by
      cases hcc : STATUSES.contains (statusUpperOf issue) with
      | false => rfl
      | true => exact absurd ((contains_iff_mem_str _ _).mp hcc) hsu
    rw [step_untracked m u issue p hb hd hc] at h
    have h' := Option.some.inj h
    rw [Prod.mk.injEq] at h'
    exact ⟨h'.1.symm, h'.2.symm⟩

/-- Witness for C4 (amended): the matched-but-untracked Bug. -/
theorem c4_single_counter_witness :
    (detect_platform iAndroidDone = none →
      initMatrix = initMatrix ∧ (0 : Nat) = 0 + 1) ∧
    (∀ p : String, detect_platform iAndroidDone = some p →
      statusUpperOf iAndroidDone ∉ STATUSES →
      initMatrix = initMatrix ∧ (0 : Nat) = 0) :=
  c4_single_counter initMatrix 0 iAndroidDone initMatrix 0 (by decide) rfl

/-- C5 counterexample: the fetcher's very first request already asks for
100 results (not a minimal one-result probe), and a non-success status on
the cursor-style endpoint makes the whole fetch fail with an error instead
of falling back to another pagination strategy. -/
theorem c5_counterexample :
    (mkRequest none).maxResults = 100 ∧
    fetch_jira_data failSrv 5 = Except.error "HTTPError" := by
  exact ⟨rfl, rfl⟩

/-- C5 (amended): the fetcher has one fixed strategy and probes nothing:
every request it ever sends asks for 100 results, and a non-success status
on the first response aborts the fetch with an error; no offset-style
fallback exists. -/
theorem c5_no_probe :
    (∀ tok : Option String, (mkRequest tok).maxResults = 100) ∧
    (∀ (srv : Request → Response) (fuel : Nat) (tok : Option String)
        (acc : List Issue) (reqs : List Request),
      (srv (mkRequest tok)).statusOk = false →
      fetchLoop srv (fuel + 1) tok acc reqs = Except.error "HTTPError") ∧
    (∀ (srv : Request → Response) (fuel : Nat) (issues : List Issue)
        (reqs : List Request),
      fetch_jira_data srv fuel = Except.ok (issues, reqs) →
      ∀ r ∈ reqs, r.maxResults = 100) := by
  refine ⟨fun tok => rfl, ?_, ?_⟩
  · intro srv fuel tok acc reqs hfail
    rw [fetchLoop_eq, hfail, if_pos (show (!false) = true from rfl)]
  · intro srv fuel issues reqs h
    exact fetchLoop_reqs srv fuel none [] [] issues reqs h (by simp)

/-- Witness for C5 (amended): a failing server and a one-page server. -/
theorem c5_no_probe_witness :
    (mkRequest (some "tok")).maxResults = 100 ∧
    fetchLoop failSrv 1 none [] [] = Except.error "HTTPError" ∧
    (∀ r ∈ [mkRequest none], r.maxResults = 100) :=
  ⟨c5_no_probe.1 (some "tok"), c5_no_probe.2.1 failSrv 0 none [] [] rfl,
   c5_no_probe.2.2 emptySrv 1 [] [mkRequest none] rfl⟩

/-- C6: the classifier tolerates the null summary (it returns no platform
without an error), but the aggregation of a Bug with a JSON null summary
and no detected platform raises: slicing `None[:60]` in the logging branch
of line 157 is a TypeError, so build_dashboard_data fails on that record
while records with every optional field missing are handled fine. -/
theorem c6_null_summary_crash :
    detect_platform iNullBug = none ∧
    isBugB iNullBug = true ∧
    hasNullSummary iNullBug = true ∧
    build_dashboard_data [iNullBug] = none ∧
    build_dashboard_data [⟨some ⟨none, none, none, none, none, []⟩⟩] =
      some initMatrix ∧
    build_dashboard_data [⟨none⟩] = some initMatrix :=
  ⟨by decide, by decide, by decide, by decide, by decide, by decide⟩

/-- C7 counterexample: permB is a permutation of permA, yet the run on
permA returns the zero matrix while the run on permB raises (the
null-summary bug is logged only when it is among the first five unmatched
ones), so the result is not order-independent. -/
theorem c7_counterexample :
    permA.Perm permB ∧
    build_dashboard_data permA = some initMatrix ∧
    build_dashboard_data permB = none := by
  exact ⟨by decide, by decide, by decide⟩

/-- C7 (amended): whenever two permutations of the same issues both
complete without raising, they return the same matrix. -/
theorem c7_perm_invariant :
    ∀ (l l' : List Issue) (m m' : DashMatrix), l.Perm l' →
      build_dashboard_data l = some m → build_dashboard_data l' = some m' →
      m = m' := by
  intro l l' m m' hperm h h'
  rw [build_char l m h, build_char l' m' h']
  unfold matrixOf
  apply List.map_congr_left
  intro p hp
  simp only [Prod.mk.injEq, true_and]
  apply List.map_congr_left
  intro s hs
  simp only [Prod.mk.injEq, true_and]
  rw [List.Perm.countP_eq _ hperm]

/-- Witness for C7 (amended): two orders of the same two issues. -/
theorem c7_perm_invariant_witness :
    matrixOf [iAndroidOpen, iPlainBug] = matrixOf [iPlainBug, iAndroidOpen] :=
  c7_perm_invariant [iAndroidOpen, iPlainBug] [iPlainBug, iAndroidOpen]
    (matrixOf [iAndroidOpen, iPlainBug]) (matrixOf [iPlainBug, iAndroidOpen])
    (by decide) (by decide) (by decide)

/-- C8: a stub serving a non-empty success page with a token and then a
page that is empty or omits the token makes the fetch loop stop after
exactly the two requests listed, returning the issues concatenated in
order. -/
theorem c8_pagination_termination :
    ∀ (p1 p2 : Response) (fuel : Nat),
      p1.statusOk = true → p2.statusOk = true → p1.issues ≠ [] →
      tokenTruthy p1.nextPageToken = true →
      (p2.issues = [] ∨ tokenTruthy p2.nextPageToken = false) →
      fetch_jira_data (stubSrv p1 p2) (fuel + 2) =
        Except.ok (p1.issues ++ p2.issues,
          [mkRequest none, mkRequest p1.nextPageToken]) := by
  intro p1 p2 fuel h1 h2 hne h4 h5
  have hs1 : stubSrv p1 p2 (mkRequest none) = p1 := by
    simp [stubSrv, mkRequest, tokenTruthy]
  have hs2 : stubSrv p1 p2 (mkRequest p1.nextPageToken) = p2 := by
    simp [stubSrv, mkRequest, h4, tokenTruthy_isNone p1.nextPageToken h4]
  have hie : p1.issues.isEmpty = false := by
    simpa using hne
  show fetchLoop (stubSrv p1 p2) (fuel + 1 + 1) none [] [] = _
  rw [fetchLoop_eq, hs1, h1]
  rw [if_neg (show ¬((!true) = true) by simp)]
  rw [h4, hie]
  rw [if_neg (show ¬((!true || false) = true) by simp)]
  rw [fetchLoop_eq, hs2, h2]
  rw [if_neg (show ¬((!true) = true) by simp)]
  have hstop : (!tokenTruthy p2.nextPageToken || p2.issues.isEmpty) = true := by
    rcases h5 with h5 | h5
    · simp [h5]
    · simp [h5]
  rw [hstop, if_pos (show true = true from rfl)]
  simp

/-- Witness for C8: one issue on the first page, an empty second page. -/
theorem c8_pagination_termination_witness :
    fetch_jira_data (stubSrv pageOne pageTwo) 2 =
      Except.ok ([iPlainBug], [mkRequest none, mkRequest (some "tok1")]) := by
  have h := c8_pagination_termination pageOne pageTwo 0 rfl rfl
    (by simp [pageOne]) rfl (Or.inl rfl)
  simpa [pageOne, pageTwo] using h

/-- C9: a fetch error leaves the previous snapshot file untouched, an
aggregation error does too, and a snapshot is written only when fetching
succeeded and aggregation produced exactly the written matrix. -/
theorem c9_no_partial_write :
    (∀ (prev : Option Snapshot) (srv : Request → Response) (fuel : Nat)
        (now : String) (e : String),
      fetch_jira_data srv fuel = Except.error e →
      finalSnapshotFile prev srv fuel now = prev) ∧
    (∀ (prev : Option Snapshot) (srv : Request → Response) (fuel : Nat)
        (now : String) (issues : List Issue) (reqs : List Request),
      fetch_jira_data srv fuel = Except.ok (issues, reqs) →
      build_dashboard_data issues = none →
      finalSnapshotFile prev srv fuel now = prev) ∧
    (∀ (srv : Request → Response) (fuel : Nat) (now : String) (s : Snapshot),
      runMain srv fuel now = some s →
      ∃ (issues : List Issue) (reqs : List Request),
        fetch_jira_data srv fuel = Except.ok (issues, reqs) ∧
        build_dashboard_data issues = some s.data ∧
        s.total_issues_fetched = issues.length) := by
  refine ⟨?_, ?_, ?_⟩
  · intro prev srv fuel now e h
    exact finalFile_of_none prev srv fuel now (runMain_fetch_error srv fuel now e h)
  · intro prev srv fuel now issues reqs hf hb
    exact finalFile_of_none prev srv fuel now
      (runMain_build_none srv fuel now issues reqs hf hb)
  · intro srv fuel now s h
    exact runMain_some srv fuel now s h

/-- Witness for C9: a failing fetch preserves the previous snapshot. -/
theorem c9_no_partial_write_witness :
    finalSnapshotFile (some snapPrev) failSrv 5 "2026-10-12T00:00:00Z" =
      some snapPrev :=
  c9_no_partial_write.1 (some snapPrev) failSrv 5 "2026-10-12T00:00:00Z"
    "HTTPError" rfl

/-- C10: every platform the classifier returns belongs to PLATFORMS, and on
a matrix whose keys are exactly the platform/status product the increment
of a cell for a member platform and member status never hits a missing
key. -/
theorem c10_increment_safe :
    (∀ (issue : Issue) (p : String), detect_platform issue = some p →
      p ∈ PLATFORMS) ∧
    (∀ (m : DashMatrix) (p s : String), m.map Prod.fst = PLATFORMS →
      (∀ r ∈ m, r.2.map Prod.fst = STATUSES) → p ∈ PLATFORMS → s ∈ STATUSES →
      (matIncr m p s).isSome = true) := by
  constructor
  · exact detect_platform_mem
  · intro m p s hkeys hrows hp hs
    apply matIncr_isSome
    · rw [hkeys]
      exact hp
    · intro r hr
      rw [hrows r hr]
      exact hs

/-- Witness for C10: the ANDROID/OPEN increment on the initial matrix. -/
theorem c10_increment_safe_witness :
    "ANDROID" ∈ PLATFORMS ∧ (matIncr initMatrix "ANDROID" "OPEN").isSome = true :=
  ⟨c10_increment_safe.1 iAndroidOpen "ANDROID" (by decide),
   c10_increment_safe.2 initMatrix "ANDROID" "OPEN" (by decide) (by decide)
     (by decide) (by decide)⟩

end FetchJira
